import Mathlib

/-!
# Verification of the diversity-surveillance-tool front end

Shallow embedding, in Lean 4, of the locally implemented logic of the
`diversity-surveillance-tool_frontend` repository: the DNA-sequence
alphabet validators, the two FASTA parsers, the oligo bulk-import flow,
the assay-amplicon single-sequence import flow, the dashboard selection
handlers, the bulk assay-reassignment call construction, the taxonomy
proxy HTTP route, and the BLAST-result CSV export.

Strings are modelled as Lean `String`s (lists of characters); the
JavaScript string operations used by the code (`replace(/\s/g,'')`,
`toUpperCase`, `trim`, `split`, `parseInt`, …) are embedded explicitly
below.  `toUpperCase` is modelled per character (ASCII case mapping),
which agrees with JavaScript on all inputs the validators accept.
-/

/-- The JavaScript `\s` (whitespace) character class, as used by
`replace(/\s/g, '')`, `trim()` and `split(/\s+/)`. -/
def isJsWhitespace (c : Char) : Bool :=
  c = ' ' || c = '\t' || c = '\n' || c.toNat = 11 || c.toNat = 12 || c = '\r' ||
  c.toNat = 0xa0 || c.toNat = 0x1680 ||
  (decide (0x2000 ≤ c.toNat) && decide (c.toNat ≤ 0x200a)) ||
  c.toNat = 0x2028 || c.toNat = 0x2029 || c.toNat = 0x202f ||
  c.toNat = 0x205f || c.toNat = 0x3000 || c.toNat = 0xfeff

/-- JavaScript `s.replace(/\s/g, '')`: delete every whitespace character. -/
def jsStripWhitespace (s : String) : String :=
  ⟨s.data.filter (fun c => !isJsWhitespace c)⟩

/-- JavaScript `s.toUpperCase()` (per-character ASCII case mapping). -/
def jsToUpperCase (s : String) : String :=
  ⟨s.data.map Char.toUpper⟩

/-- JavaScript `s.trim()`: drop leading and trailing whitespace. -/
def jsTrim (s : String) : String :=
  ⟨((s.data.dropWhile isJsWhitespace).reverse.dropWhile isJsWhitespace).reverse⟩

/-- `sequence.replace(/\s/g, '').toUpperCase()` — the cleaning step both
validators and both import flows apply to a raw sequence string. -/
def cleanSequence (s : String) : String :=
  jsToUpperCase (jsStripWhitespace s)

/-- The character class of the validator regex `/^[ACGTIRYSWKMBDHVN]+$/`
(`src/app/(authenticated)/oligo-repository/page.tsx` line 111 and
`dashboard/page.tsx` line 508).  Note that it contains `I`. -/
def validSeqChar (c : Char) : Bool :=
  "ACGTIRYSWKMBDHVN".data.contains c

/-- The rejection message of both validators. -/
def invalidCharsMessage : String :=
  "Sequence contains invalid characters. Only A, C, G, T and IUPAC ambiguous codes (R, Y, S, W, K, M, B, D, H, V, N) are allowed."

/-- The allowed alphabet as named by the spec, by the validator's own code
comment and by its user-facing error message: {A,C,G,T,R,Y,S,W,K,M,B,D,H,V,N}.
This is the claim-side set, kept for comparison with `validSeqChar`. -/
def specAllowedAlphabet : String := "ACGTRYSWKMBDHVN"

/-- `validateDnaSequence` of the oligo-repository page (lines 106-117):
clean, then test `/^[ACGTIRYSWKMBDHVN]+$/`; `none` means accepted,
`some msg` means rejected with message `msg`. -/
def validateDnaSequence (sequence : String) : Option String :=
  let cleaned := cleanSequence sequence
  if !cleaned.data.isEmpty && cleaned.data.all validSeqChar then
    none
  else
    some invalidCharsMessage

/-- `validateDnaSequence` of the assay (dashboard file) variant
(lines 499-514): same as the oligo variant but with an explicit
required-field check for the empty cleaned string. -/
def validateDnaSequenceAssay (sequence : String) : Option String :=
  let cleaned := cleanSequence sequence
  if cleaned = "" then
    some "Amplicon sequence is required"
  else if cleaned.data.all validSeqChar then
    none
  else
    some invalidCharsMessage

/-- Auxiliary loop for `splitOnChar`: `acc` holds the (reversed) characters
of the piece being built. -/
def splitOnCharAux (sep : Char) : List Char → List Char → List String
  | [], acc => [⟨acc.reverse⟩]
  | c :: cs, acc =>
    if c = sep then ⟨acc.reverse⟩ :: splitOnCharAux sep cs []
    else splitOnCharAux sep cs (c :: acc)

/-- JavaScript `s.split(sep)` for a one-character separator (used as
`content.split('\n')` and `pattern.split('|')`). -/
def splitOnChar (sep : Char) (s : String) : List String :=
  splitOnCharAux sep s.data []

/-- JavaScript `s.startsWith('>')`. -/
def startsWithGt (s : String) : Bool :=
  match s.data with
  | '>' :: _ => true
  | _ => false

/-- A parsed FASTA record: `{ name, sequence }`. -/
structure FastaRecord where
  name : String
  sequence : String
deriving Repr, DecidableEq

/-- Header-name extraction:
`trimmed.substring(1).split(/\s+/)[0] || `Sequence_${count + 1}``.
The first element of a JavaScript `split(/\s+/)` is the longest prefix
containing no whitespace (empty when the string starts with whitespace),
and an empty token falls back to the positional placeholder. -/
def fastaHeaderName (trimmed : String) (count : Nat) : String :=
  let token : List Char := (trimmed.data.drop 1).takeWhile (fun c => !isJsWhitespace c)
  if token.isEmpty then "Sequence_" ++ toString (count + 1) else ⟨token⟩

/-- The line loop of `parseFastaFile` (oligo-repository page, lines 126-145),
carrying the accumulated records and the current `{name, sequence}` pair. -/
def parseFastaLoop : List String → List FastaRecord → String → String →
    List FastaRecord × String × String
  | [], seqs, curName, curSeq => (seqs, curName, curSeq)
  | line :: rest, seqs, curName, curSeq =>
    let trimmed := jsTrim line
    if trimmed = "" then
      parseFastaLoop rest seqs curName curSeq
    else if startsWithGt trimmed then
      let seqs' := if curName ≠ "" ∧ curSeq ≠ "" then seqs ++ [⟨curName, curSeq⟩] else seqs
      parseFastaLoop rest seqs' (fastaHeaderName trimmed seqs'.length) ""
    else
      parseFastaLoop rest seqs curName (curSeq ++ trimmed)

/-- `parseFastaFile` of the oligo-repository page (lines 120-156): split the
content on `'\n'`, run the line loop, then push the pending record if both
its name and its body are non-empty. -/
def parseFastaFile (content : String) : List FastaRecord :=
  let res := parseFastaLoop (splitOnChar '\n' content) [] "" ""
  if res.2.1 ≠ "" ∧ res.2.2 ≠ "" then res.1 ++ [⟨res.2.1, res.2.2⟩] else res.1

/-- The line loop of the assay-variant `parseFastaFile`
(dashboard file, lines 523-542); its body is the same as the
oligo-repository loop, transcribed from its own source. -/
def parseFastaLoopAssay : List String → List FastaRecord → String → String →
    List FastaRecord × String × String
  | [], seqs, curName, curSeq => (seqs, curName, curSeq)
  | line :: rest, seqs, curName, curSeq =>
    let trimmed := jsTrim line
    if trimmed = "" then
      parseFastaLoopAssay rest seqs curName curSeq
    else if startsWithGt trimmed then
      let seqs' := if curName ≠ "" ∧ curSeq ≠ "" then seqs ++ [⟨curName, curSeq⟩] else seqs
      parseFastaLoopAssay rest seqs' (fastaHeaderName trimmed seqs'.length) ""
    else
      parseFastaLoopAssay rest seqs curName (curSeq ++ trimmed)

/-- The record list accumulated by the assay-variant `parseFastaFile`
(dashboard file, lines 517-551) at the program point just before its
record-count checks. -/
def parseFastaRecordsAssay (content : String) : List FastaRecord :=
  let res := parseFastaLoopAssay (splitOnChar '\n' content) [] "" ""
  if res.2.1 ≠ "" ∧ res.2.2 ≠ "" then res.1 ++ [⟨res.2.1, res.2.2⟩] else res.1

/-- The assay-variant `parseFastaFile` (dashboard file, lines 517-561):
`.ok none` models the `null` return (no record), `.error` the thrown
record-count error, `.ok (some r)` the single returned record. -/
def parseFastaFileAssay (content : String) : Except String (Option FastaRecord) :=
  let sequences := parseFastaRecordsAssay content
  if sequences.length = 0 then
    .ok none
  else if sequences.length > 1 then
    .error ("FASTA file must contain exactly one sequence. Found " ++
      toString sequences.length ++ " sequences.")
  else
    .ok sequences.head?

/-- The amplicon-related form state of the assay creation page: the two
fields the FASTA import may populate, plus the inline form error. -/
structure AssayFormState where
  ampliconSequence : String
  ampliconName : String
  formError : Option String
deriving Repr, DecidableEq

/-- `handleFileImport` of the dashboard file (lines 564-618), as a pure
function from the file content and the current form state to the next
form state.  Error paths set `formError` and leave the amplicon fields
untouched; the success path populates `ampliconSequence` with the cleaned
sequence and `ampliconName` with the record name when the field is blank. -/
def handleFileImportAssay (fileContent : String) (st : AssayFormState) : AssayFormState :=
  match parseFastaFileAssay fileContent with
  | .error msg => { st with formError := some msg }
  | .ok none => { st with formError := some "No sequence found in FASTA file" }
  | .ok (some parsed) =>
    let cleanedSequence := cleanSequence parsed.sequence
    match validateDnaSequenceAssay cleanedSequence with
    | some validationError => { st with formError := some validationError }
    | none =>
      { ampliconSequence := cleanedSequence,
        ampliconName :=
          if parsed.name ≠ "" ∧ jsTrim st.ampliconName = "" then parsed.name
          else st.ampliconName,
        formError := none }

/-- The number of header lines of a FASTA text: lines that, after
trimming, begin with `>` (the condition of the parsers' header branch). -/
def countHeaderLines (content : String) : Nat :=
  ((splitOnChar '\n' content).filter (fun l => startsWithGt (jsTrim l))).length

/-- The argument object of a `create_user_oligo` call issued by the
oligo bulk import (oligo-repository page, lines 206-211). -/
structure CreateOligoCall where
  p_sequence_name : String
  p_dna_sequence : String
  p_assay_id : Option Nat
  p_panel_id : Option Nat
deriving Repr, DecidableEq

/-- The running state of the oligo bulk-import loop: the index of the next
record (used to consult the modelled backend), the success and failure
counters, the collected `(name, error)` list, and the `create_user_oligo`
calls issued so far. -/
structure ImportState where
  idx : Nat
  success : Nat
  failed : Nat
  errors : List (String × String)
  calls : List CreateOligoCall
deriving Repr, DecidableEq

/-- One iteration of the oligo bulk-import loop (oligo-repository page,
lines 195-233).  The outcome of the external `create_user_oligo` call for
the `i`-th record is modelled by `backend i` (`none` = created,
`some msg` = error with message `msg`); the call is only issued when the
sequence passes validation, and either outcome leaves the loop running. -/
def importStep (backend : Nat → Option String) (importAssayId : Option Nat)
    (st : ImportState) (seq : FastaRecord) : ImportState :=
  let cleanedSequence := cleanSequence seq.sequence
  match validateDnaSequence cleanedSequence with
  | some validationError =>
    { st with
      idx := st.idx + 1
      failed := st.failed + 1
      errors := st.errors ++ [(seq.name, validationError)] }
  | none =>
    let call : CreateOligoCall :=
      { p_sequence_name :=
          if jsTrim seq.name = "" then "Sequence_" ++ toString (st.success + st.failed + 1)
          else jsTrim seq.name
        p_dna_sequence := cleanedSequence
        p_assay_id := importAssayId
        p_panel_id := none }
    match backend st.idx with
    | some createError =>
      { st with
        idx := st.idx + 1
        failed := st.failed + 1
        errors := st.errors ++ [(seq.name, createError)]
        calls := st.calls ++ [call] }
    | none =>
      { st with
        idx := st.idx + 1
        success := st.success + 1
        calls := st.calls ++ [call] }

/-- The oligo bulk-import loop (`handleFileImport` of the oligo-repository
page, lines 190-233) run over all parsed records. -/
def runImport (backend : Nat → Option String) (importAssayId : Option Nat)
    (seqs : List FastaRecord) : ImportState :=
  seqs.foldl (importStep backend importAssayId) ⟨0, 0, 0, [], []⟩

/-- The progress report rendered by the import UI. -/
structure ImportProgress where
  total : Nat
  success : Nat
  failed : Nat
  errors : List (String × String)
deriving Repr, DecidableEq

/-- The sequence of progress reports displayed during a bulk import: the
initial `setImportProgress` (line 188) followed by the per-record updates
(lines 227-232). -/
def importProgressReports (backend : Nat → Option String) (importAssayId : Option Nat)
    (seqs : List FastaRecord) : List ImportProgress :=
  ((seqs.scanl (importStep backend importAssayId) ⟨0, 0, 0, [], []⟩).map
    (fun st => ⟨seqs.length, st.success, st.failed, st.errors⟩))

/-- Whether the `i`-th record of a bulk import fails: its cleaned sequence
fails validation, or (when validation passes) the modelled
`create_user_oligo` call reports an error. -/
def recordFails (backend : Nat → Option String) (i : Nat) (r : FastaRecord) : Bool :=
  (validateDnaSequence (cleanSequence r.sequence)).isSome || (backend i).isSome

/-- The `(name, message)` failure entries produced by a bulk import of
`seqs` starting at record index `i`. -/
def failingEntries (backend : Nat → Option String) : Nat → List FastaRecord →
    List (String × String)
  | _, [] => []
  | i, r :: rs =>
    match validateDnaSequence (cleanSequence r.sequence) with
    | some validationError => (r.name, validationError) :: failingEntries backend (i + 1) rs
    | none =>
      match backend i with
      | some createError => (r.name, createError) :: failingEntries backend (i + 1) rs
      | none => failingEntries backend (i + 1) rs

/-- The number of records of `seqs` (starting at index `i`) that fail. -/
def countFails (backend : Nat → Option String) : Nat → List FastaRecord → Nat
  | _, [] => 0
  | i, r :: rs =>
    (if recordFails backend i r then 1 else 0) + countFails backend (i + 1) rs

/-- The number of records whose cleaned sequence passes validation — these
are exactly the records for which a `create_user_oligo` call is issued. -/
def countValidationPasses (seqs : List FastaRecord) : Nat :=
  (seqs.filter (fun r => (validateDnaSequence (cleanSequence r.sequence)).isNone)).length

/-- The `DashboardEntry` interface of the dashboard page (lines 9-15).
It carries no job-pointer field. -/
structure DashboardEntry where
  entry_id : Nat
  assay_name : String
  lookback_days : Option Nat
  last_checked : Option String
  nuccor_entries_found : Option Nat
deriving Repr, DecidableEq

/-- Modelled from the spec: the dashboard read call returns "the full row
set including any in-flight job pointer".  The raw row as fetched is the
displayed entry together with that optional queued-job pointer; the field
is absent from the front end's `DashboardEntry` and is dropped by the
mapping in `fetchDashboardEntries` (lines 96-104). -/
structure DashboardRow where
  entry : DashboardEntry
  queued_job : Option Nat
deriving Repr, DecidableEq

/-- The mapping step of `fetchDashboardEntries` (lines 96-104): the rows
are projected to `DashboardEntry`, discarding any queued-job pointer. -/
def fetchDashboardEntriesMap (rows : List DashboardRow) : List DashboardEntry :=
  rows.map (fun row => row.entry)

/-- `handleCheckboxToggle` of the dashboard page (lines 130-140): remove
the id when selected, add it otherwise — with no condition on the entry. -/
def handleCheckboxToggle (entryId : Nat) (selected : Finset Nat) : Finset Nat :=
  if entryId ∈ selected then selected.erase entryId else insert entryId selected

/-- `handleCheckAll` of the dashboard page (lines 143-151): when the
selection size equals the entry count, clear it; otherwise select every
entry's id — with no condition on the entries. -/
def handleCheckAll (entries : List DashboardEntry) (selected : Finset Nat) : Finset Nat :=
  if selected.card = entries.length then ∅
  else (entries.map (fun entry => entry.entry_id)).toFinset

/-- The argument object of an `oligo_change_assay` call issued by
`handleBulkChangeAssay` (oligo-repository page, lines 390-393).  The
`p_assay_id` key is structurally present in every call; its value is the
nullable bulk target (`none` = the "Not assigned" choice = SQL null). -/
structure OligoChangeAssayCall where
  p_oligo_id : Nat
  p_assay_id : Option Nat
deriving Repr, DecidableEq

/-- `handleBulkChangeAssay` (oligo-repository page, lines 374-419), viewed
as the list of RPC calls it issues: one `oligo_change_assay` call per
selected oligo, each passing the same nullable `p_assay_id`. -/
def handleBulkChangeAssayCalls (selectedOligos : List Nat) (bulkAssayId : Option Nat) :
    List OligoChangeAssayCall :=
  selectedOligos.map (fun oligoId => { p_oligo_id := oligoId, p_assay_id := bulkAssayId })

/-- Decimal digit characters of a natural number (most significant first),
with explicit fuel so the definition is structural.  Embeds the JavaScript
number-to-string rendering `${n}` for naturals. -/
def natDecCharsAux : Nat → Nat → List Char
  | 0, _ => []
  | fuel + 1, n =>
    if n < 10 then [Char.ofNat (48 + n)]
    else natDecCharsAux fuel (n / 10) ++ [Char.ofNat (48 + n % 10)]

/-- Decimal rendering of a natural number. -/
def natToStr (n : Nat) : String := ⟨natDecCharsAux (n + 1) n⟩

/-- The maximal leading digit run of a character list, as a value:
`none` when there is no leading digit (JavaScript `parseInt` yields `NaN`). -/
def leadingDigitsValue (cs : List Char) : Option Nat :=
  match cs.takeWhile Char.isDigit with
  | [] => none
  | ds => some (ds.foldl (fun a c => a * 10 + (c.toNat - 48)) 0)

/-- JavaScript `parseInt(s, 10)` on an already-trimmed string: an optional
sign followed by the maximal leading digit run; `none` models `NaN`.
Trailing non-digit characters are ignored, exactly as `parseInt` does. -/
def jsParseInt (s : String) : Option Int :=
  match s.data with
  | '-' :: rest => (leadingDigitsValue rest).map (fun n => -(n : Int))
  | '+' :: rest => (leadingDigitsValue rest).map (fun n => (n : Int))
  | cs => (leadingDigitsValue cs).map (fun n => (n : Int))

/-- Whether `pat` is a prefix of `hay` (character lists). -/
def charsHavePfx : List Char → List Char → Bool
  | [], _ => true
  | _ :: _, [] => false
  | p :: ps, h :: hs => p = h && charsHavePfx ps hs

/-- Whether `pat` occurs as a substring of `hay` (character lists). -/
def charsInclude (pat : List Char) : List Char → Bool
  | [] => charsHavePfx pat []
  | h :: hs => charsHavePfx pat (h :: hs) || charsInclude pat hs

/-- JavaScript `hay.includes(pat)`. -/
def strIncludes (hay pat : String) : Bool :=
  charsInclude pat.data hay.data

/-- The interaction with the upstream NCBI esummary service, as observed by
the taxonomy route's `try` block: a parsed OK response (the `result.uids`
list and the `scientificname` of the first uid), a non-OK HTTP status, a
fetch timeout (`TimeoutError`/`AbortError`), a network failure (an error
whose message includes `'fetch'`), or any other thrown error. -/
inductive NcbiOutcome where
  | ok (uids : List Nat) (scientificname : Option String)
  | httpError (status : Nat)
  | timeout
  | networkError
  | otherError (msg : String)
deriving Repr, DecidableEq

/-- The status code returned by the taxonomy proxy route (`GET` handler of
the NCBI taxid lookup, modelled from its source): 400 for a missing
parameter or when `parseInt(taxid.trim(), 10)` is `NaN` or `≤ 0`;
otherwise the outcome of the upstream interaction is mapped through the
route's `catch` logic (`TimeoutError`/`AbortError` → 504, message
including `'fetch'` → 503, anything else → 500; a non-OK response throws
`'NCBI API returned status <n>'`), and an OK response yields 404 when
`uids` is empty or the first record has no scientific name, 200 otherwise. -/
def taxidRouteStatus (taxidParam : Option String) (upstream : NcbiOutcome) : Nat :=
  match taxidParam with
  | none => 400
  | some taxid =>
    match jsParseInt (jsTrim taxid) with
    | none => 400
    | some taxidNum =>
      if taxidNum ≤ 0 then 400
      else
        match upstream with
        | .timeout => 504
        | .networkError => 503
        | .httpError status =>
          let msg := "NCBI API returned status " ++ natToStr status
          if strIncludes msg "fetch" then 503 else 500
        | .otherError msg =>
          if strIncludes msg "fetch" then 503 else 500
        | .ok uids scientificname =>
          match uids with
          | [] => 404
          | _ :: _ =>
            match scientificname with
            | none => 404
            | some _ => 200

/-- The claim-side reading of "the taxid query parameter denotes a positive
integer": after trimming, the parameter is a non-empty all-digit string
with a positive value.  Kept only for comparison with what the route's
`parseInt`-based validation actually accepts. -/
def specDenotesPositiveInteger (t : String) : Bool :=
  !(jsTrim t).data.isEmpty && (jsTrim t).data.all Char.isDigit &&
    ((leadingDigitsValue (jsTrim t).data).getD 0 > 0)

/-- A clustered alignment pattern of a BLAST result (`ResultPattern`,
taxid page lines 54-60).  Numeric values are modelled as integers; their
rendered form is all the CSV export uses. -/
structure ResultPattern where
  count : Int
  pattern : String
  examples : List String
  matched_oligos : Int
  total_mismatches : Int
deriving Repr, DecidableEq

/-- The statistics block of a BLAST result (taxid page lines 66-72). -/
structure ResultStatistics where
  alignment_rate : Int
  total_blast_hits : Int
  sequences_aligned : Int
  filtered_blast_hits : Int
  sequences_with_min_matches : Int
deriving Repr, DecidableEq

/-- One per-oligo statistics record (taxid page lines 73-78). -/
structure OligoStats where
  match_rate : Int
  sense_matches : Int
  total_matches : Int
  antisense_matches : Int
deriving Repr, DecidableEq

/-- The result payload of a done BLAST job (`ResultData`, taxid page
lines 62-79); `per_oligo_stats` is an association list in the object's
insertion order, as traversed by `Object.entries`. -/
structure ResultData where
  patterns : List ResultPattern
  statistics : ResultStatistics
  per_oligo_stats : List (String × OligoStats)
deriving Repr, DecidableEq

/-- The fields of a `BlastAlignerJob` used by the CSV export (taxid page
lines 28-47). -/
structure BlastJob where
  align_id : Int
  alignjob_taxid : Int
  alignjob_date_from : String
  alignjob_date_to : String
  alignjob_identity : Option Int
  alignjob_coverage : Option Int
  alignjob_match_score : Option Int
  alignjob_mismatch_score : Option Int
  alignjob_opengap : Option Int
  alignjob_extendgap : Option Int
  alignjob_oligo_min_cover : Option Int
deriving Repr, DecidableEq

/-- `x?.toString() || 'N/A'` for a nullable numeric field. -/
def optNumCell (x : Option Int) : String :=
  match x with
  | some v => toString v
  | none => "N/A"

/-- The alignment string extracted from one `|`-separated pattern part
(taxid page lines 497-506): the leading paren-free run, trimmed; when
there is none, the leading dot run; when there is none either, the part
itself. -/
def patternAlignmentString (part : String) : String :=
  let pfx : List Char := part.data.takeWhile (fun c => !(c = '(' || c = ')'))
  if !pfx.isEmpty then jsTrim ⟨pfx⟩
  else
    let dots : List Char := part.data.takeWhile (fun c => c = '.')
    if !dots.isEmpty then ⟨dots⟩ else part

/-- The CSV data row built for one pattern (taxid page lines 493-519):
the per-oligo alignment strings, padded with empty cells to the number of
oligos and truncated to it, followed by the count, total mismatches and
the `'; '`-joined example accessions. -/
def patternRow (oligoCount : Nat) (p : ResultPattern) : List String :=
  let patternParts := (splitOnChar '|' p.pattern).map jsTrim
  let alignmentStrings := patternParts.map patternAlignmentString
  let padded := alignmentStrings ++ List.replicate (oligoCount - alignmentStrings.length) ""
  padded.take oligoCount ++
    [toString p.count, toString p.total_mismatches, String.intercalate "; " p.examples]

/-- The three rows pushed by `addSectionHeader` (taxid page lines 420-424):
an empty row, the title row, another empty row. -/
def sectionHeaderRows (title : String) : List (List String) :=
  [[""], [title], [""]]

/-- The full row list built by `handleExportCSV` (taxid page lines
406-519), in push order: job information, statistics, the conditional
per-oligo statistics table, input parameters, then the alignment-patterns
table (one header row, one oligo-sequence row, one row per pattern). -/
def handleExportCSVRows (job : BlastJob) (assayName : String) (result : ResultData)
    (oligoNames oligoSequences : List String) : List (List String) :=
  sectionHeaderRows "Job Information" ++
  [["Assay Name", assayName],
   ["Job ID", toString job.align_id],
   ["Date Range", job.alignjob_date_from ++ " to " ++ job.alignjob_date_to]] ++
  sectionHeaderRows "Statistics" ++
  [["Alignment Rate (%)", toString result.statistics.alignment_rate],
   ["Total BLAST Hits", toString result.statistics.total_blast_hits],
   ["Sequences Aligned", toString result.statistics.sequences_aligned],
   ["Filtered BLAST Hits", toString result.statistics.filtered_blast_hits],
   ["Sequences with Min Matches", toString result.statistics.sequences_with_min_matches]] ++
  (if result.per_oligo_stats.length > 0 then
    sectionHeaderRows "Per-Oligo Statistics" ++
    [["Oligo Name", "Match Rate (%)", "Sense Matches", "Antisense Matches", "Total Matches"]] ++
    result.per_oligo_stats.map (fun entry =>
      [entry.1, toString entry.2.match_rate, toString entry.2.sense_matches,
       toString entry.2.antisense_matches, toString entry.2.total_matches])
  else []) ++
  sectionHeaderRows "Input Parameters" ++
  [["Date From", job.alignjob_date_from],
   ["Date To", job.alignjob_date_to],
   ["TaxID", toString job.alignjob_taxid],
   [""],
   ["BLAST Parameters"],
   ["Identity (%)", optNumCell job.alignjob_identity],
   ["Coverage (%)", optNumCell job.alignjob_coverage],
   [""],
   ["Pairwise Aligner Parameters"],
   ["Match Score", optNumCell job.alignjob_match_score],
   ["Mismatch Score", optNumCell job.alignjob_mismatch_score],
   ["Open Gap Penalty", optNumCell job.alignjob_opengap],
   ["Extend Gap Penalty", optNumCell job.alignjob_extendgap],
   [""],
   ["Other Parameters"],
   ["Oligo Min Cover", optNumCell job.alignjob_oligo_min_cover]] ++
  sectionHeaderRows "Alignment Patterns" ++
  [oligoNames ++ ["Count", "Total Mismatches", "Examples"]] ++
  [oligoSequences ++ ["", "", ""]] ++
  result.patterns.map (patternRow oligoNames.length)

/-- `cell.replace(/"/g, '""')`: double every double-quote character. -/
def escapeQuotes (s : String) : String :=
  ⟨s.data.foldr (fun c acc => if c = '"' then '"' :: '"' :: acc else c :: acc) []⟩

/-- The field serialization of the CSV export: `"${cell.replace(/"/g, '""')}"`. -/
def quoteField (cell : String) : String :=
  "\"" ++ escapeQuotes cell ++ "\""

/-- The CSV serialization (taxid page line 522): every field quoted, fields
joined with `','`, rows joined with `'\n'`. -/
def csvSerialize (rows : List (List String)) : String :=
  String.intercalate "\n" (rows.map (fun row => String.intercalate "," (row.map quoteField)))

/-- The number of double-quote characters of a string. -/
def countQuotes (s : String) : Nat :=
  s.data.count '"'

/-! ## Supporting lemmas -/

/-- Any record in the output of the FASTA line loop is either carried over
from the initial accumulator or was pushed under the non-empty guard. -/
theorem mem_of_mem_parseFastaLoop :
    ∀ (lines : List String) (seqs : List FastaRecord) (curName curSeq : String)
      (r : FastaRecord), r ∈ (parseFastaLoop lines seqs curName curSeq).1 →
      r ∈ seqs ∨ (r.name ≠ "" ∧ r.sequence ≠ "")
  | [], _, _, _, _, h => Or.inl h
  | line :: rest, seqs, curName, curSeq, r, h => by
    simp only [parseFastaLoop] at h
    by_cases h1 : jsTrim line = ""
    · rw [if_pos h1] at h
      exact mem_of_mem_parseFastaLoop rest seqs curName curSeq r h
    · rw [if_neg h1] at h
      by_cases h2 : startsWithGt (jsTrim line) = true
      · rw [if_pos h2] at h
        rcases mem_of_mem_parseFastaLoop rest _ _ _ r h with hr | hp
        · by_cases h3 : curName ≠ "" ∧ curSeq ≠ ""
          · rw [if_pos h3] at hr
            rcases List.mem_append.mp hr with hr | hr
            · exact Or.inl hr
            · rcases List.mem_singleton.mp hr with rfl
              exact Or.inr ⟨h3.1, h3.2⟩
          · rw [if_neg h3] at hr
            exact Or.inl hr
        · exact Or.inr hp
      · rw [if_neg h2] at h
        exact mem_of_mem_parseFastaLoop rest seqs curName (curSeq ++ jsTrim line) r h

/-- The two FASTA line loops compute the same function. -/
theorem parseFastaLoopAssay_eq :
    ∀ (lines : List String) (seqs : List FastaRecord) (curName curSeq : String),
      parseFastaLoopAssay lines seqs curName curSeq = parseFastaLoop lines seqs curName curSeq
  | [], _, _, _ => rfl
  | line :: rest, seqs, curName, curSeq => by
    simp only [parseFastaLoopAssay, parseFastaLoop]
    by_cases h1 : jsTrim line = ""
    · rw [if_pos h1, if_pos h1]
      exact parseFastaLoopAssay_eq rest seqs curName curSeq
    · rw [if_neg h1, if_neg h1]
      by_cases h2 : startsWithGt (jsTrim line) = true
      · rw [if_pos h2, if_pos h2]
        exact parseFastaLoopAssay_eq rest _ _ _
      · rw [if_neg h2, if_neg h2]
        exact parseFastaLoopAssay_eq rest seqs curName (curSeq ++ jsTrim line)

/-! ## Claim theorems -/

/-- C1: the claim states the validator accepts exactly the strings whose
cleaned form is over {A,C,G,T,R,Y,S,W,K,M,B,D,H,V,N}, the set the
validator's own comment and error message name.  The code's regex
additionally contains `I`: both validator variants accept the input
`"I"` although `I` is not in that set — the code contradicts its own
documentation and message. -/
theorem c1_regex_admits_I :
    validateDnaSequence "I" = none ∧ validateDnaSequenceAssay "I" = none ∧
    specAllowedAlphabet.data.contains 'I' = false := by decide

/-- C2: parsing `">s1\nACGT\n>s2\nTTTT"` yields exactly the records
`("s1","ACGT")` and `("s2","TTTT")` in that order; and every record the
multi-record parser emits has a non-empty name and a non-empty sequence
body, so a header followed by no non-empty sequence line produces no
record. -/
theorem c2_parseFasta_two_records_and_no_empty_records :
    parseFastaFile ">s1\nACGT\n>s2\nTTTT" = [⟨"s1", "ACGT"⟩, ⟨"s2", "TTTT"⟩] ∧
    ∀ (content : String) (r : FastaRecord), r ∈ parseFastaFile content →
      r.name ≠ "" ∧ r.sequence ≠ "" := by
  constructor
  · decide
  · intro content r h
    simp only [parseFastaFile] at h
    by_cases hg : (parseFastaLoop (splitOnChar '\n' content) [] "" "").2.1 ≠ "" ∧
        (parseFastaLoop (splitOnChar '\n' content) [] "" "").2.2 ≠ ""
    · rw [if_pos hg] at h
      rcases List.mem_append.mp h with h | h
      · rcases mem_of_mem_parseFastaLoop _ _ _ _ _ h with h | h
        · exact absurd h (List.not_mem_nil r)
        · exact h
      · rcases List.mem_singleton.mp h with rfl
        exact ⟨hg.1, hg.2⟩
    · rw [if_neg hg] at h
      rcases mem_of_mem_parseFastaLoop _ _ _ _ _ h with h | h
      · exact absurd h (List.not_mem_nil r)
      · exact h

/-- Witness for C2 at the concrete input of the claim. -/
theorem c2_witness :
    (⟨"s1", "ACGT"⟩ : FastaRecord).name ≠ "" ∧ (⟨"s1", "ACGT"⟩ : FastaRecord).sequence ≠ "" :=
  c2_parseFasta_two_records_and_no_empty_records.2 ">s1\nACGT\n>s2\nTTTT" ⟨"s1", "ACGT"⟩
    (by decide)

/-- C9: for every input text, the record list accumulated by the
single-sequence (assay) parser before its record-count check equals the
record list returned by the multi-record (oligo bulk-import) parser. -/
theorem c9_parsers_agree (content : String) :
    parseFastaRecordsAssay content = parseFastaFile content := by
  simp only [parseFastaRecordsAssay, parseFastaFile, parseFastaLoopAssay_eq]

/-- C8: choosing the "Not assigned" target (a `null` bulk assay id) still
issues one `oligo_change_assay` call per selected oligo, and every call
carries the `p_assay_id` key explicitly with value `null`. -/
theorem c8_unassign_passes_explicit_null (selectedOligos : List Nat) :
    handleBulkChangeAssayCalls selectedOligos none =
      selectedOligos.map (fun oligoId => ⟨oligoId, none⟩) ∧
    (handleBulkChangeAssayCalls selectedOligos none).length = selectedOligos.length ∧
    ∀ call ∈ handleBulkChangeAssayCalls selectedOligos none, call.p_assay_id = none := by
  refine ⟨rfl, by simp [handleBulkChangeAssayCalls], ?_⟩
  intro call hc
  simp only [handleBulkChangeAssayCalls, List.mem_map] at hc
  obtain ⟨oligoId, _, rfl⟩ := hc
  rfl

/-- Witness for C8 with one selected oligo. -/
theorem c8_witness : (⟨5, none⟩ : OligoChangeAssayCall).p_assay_id = none :=
  (c8_unassign_passes_explicit_null [5]).2.2 ⟨5, none⟩ (by decide)

/-- C10: both validator variants reject every input that is empty or
consists only of whitespace, and every accepted input has a non-empty
cleaned form. -/
theorem c10_blank_inputs_rejected (s : String) :
    ((∀ c ∈ s.data, isJsWhitespace c = true) →
      validateDnaSequence s = some invalidCharsMessage ∧
      validateDnaSequenceAssay s = some "Amplicon sequence is required") ∧
    (validateDnaSequence s = none → cleanSequence s ≠ "") ∧
    (validateDnaSequenceAssay s = none → cleanSequence s ≠ "") := by
  have hval : validateDnaSequence s =
      (if !(cleanSequence s).data.isEmpty && (cleanSequence s).data.all validSeqChar then
        none else some invalidCharsMessage) := rfl
  have hvalA : validateDnaSequenceAssay s =
      (if cleanSequence s = "" then some "Amplicon sequence is required"
       else if (cleanSequence s).data.all validSeqChar then none
       else some invalidCharsMessage) := rfl
  refine ⟨?_, ?_, ?_⟩
  · intro h
    have hclean : cleanSequence s = "" := by
      simp only [cleanSequence, jsStripWhitespace, jsToUpperCase]
      have hf : s.data.filter (fun c => !isJsWhitespace c) = [] :=
        List.filter_eq_nil_iff.mpr (by intro c hc; simp [h c hc])
      rw [hf]
      rfl
    rw [hval, hvalA, hclean]
    exact ⟨by decide, by decide⟩
  · intro h hc
    rw [hval, hc] at h
    exact absurd h (by decide)
  · intro h hc
    rw [hvalA, hc] at h
    exact absurd h (by decide)

/-- Witness for C10 at the whitespace-only input `" \t\n "` and the
accepted input `"ACGT"`. -/
theorem c10_witness :
    (validateDnaSequence " \t\n " = some invalidCharsMessage ∧
      validateDnaSequenceAssay " \t\n " = some "Amplicon sequence is required") ∧
    cleanSequence "ACGT" ≠ "" :=
  ⟨(c10_blank_inputs_rejected " \t\n ").1 (by decide),
   (c10_blank_inputs_rejected "ACGT").2.1 (by decide)⟩

/-- C4 counterexample: the file `">a\n>b\nACGT"` contains two header lines,
yet the single-sequence import succeeds and populates the amplicon form
(the body-less first header is dropped by the parser, leaving one record),
contradicting the claim that every two-header file raises the
exactly-one-sequence error. -/
theorem c4_counterexample_two_headers_import_succeeds :
    countHeaderLines ">a\n>b\nACGT" = 2 ∧
    handleFileImportAssay ">a\n>b\nACGT" ⟨"", "", none⟩ = ⟨"ACGT", "b", none⟩ := by decide

/-- C4 (amended): whenever the assay-variant parser accumulates two or more
records, the single-sequence import sets the exactly-one-sequence error
(with the record count) and leaves the amplicon form fields untouched. -/
theorem c4_multi_record_error (content : String) (st : AssayFormState)
    (h : 2 ≤ (parseFastaRecordsAssay content).length) :
    handleFileImportAssay content st =
      { st with formError := some ("FASTA file must contain exactly one sequence. Found " ++
          toString (parseFastaRecordsAssay content).length ++ " sequences.") } := by
  have h0 : ¬(parseFastaRecordsAssay content).length = 0 := by omega
  have h1 : (parseFastaRecordsAssay content).length > 1 := by omega
  simp only [handleFileImportAssay, parseFastaFileAssay, if_neg h0, if_pos h1]

/-- Witness for C4 at a two-record file. -/
theorem c4_witness :
    handleFileImportAssay ">a\nAC\n>b\nGT" ⟨"x", "y", none⟩ =
      ⟨"x", "y", some "FASTA file must contain exactly one sequence. Found 2 sequences."⟩ :=
  (c4_multi_record_error ">a\nAC\n>b\nGT" ⟨"x", "y", none⟩ (by decide)).trans (by decide)

/-- C5 counterexample: with one fetched row whose queued-job pointer is
`some 7`, toggling "select all" from the empty selection selects that
entry's id — the selection handlers never consult a job pointer (the
front-end entry type does not even carry one). -/
theorem c5_counterexample_checkAll_selects_pointered_entry :
    (1 : Nat) ∈ handleCheckAll
        (fetchDashboardEntriesMap [⟨⟨1, "a", none, none, none⟩, some 7⟩]) ∅ ∧
    (⟨⟨1, "a", none, none, none⟩, some 7⟩ : DashboardRow).queued_job = some 7 := by
  refine ⟨?_, rfl⟩
  decide

/-- C5 (amended): the dashboard selection handlers ignore job status
entirely: when the selection size differs from the entry count, "select
all" selects every fetched entry's id, including entries whose fetched row
carries a queued-job pointer; and individually toggling an unselected id
always adds it. -/
theorem c5_selection_ignores_job_pointer (rows : List DashboardRow) (selected : Finset Nat)
    (entryId : Nat) :
    (selected.card ≠ (fetchDashboardEntriesMap rows).length →
      ∀ row ∈ rows,
        row.entry.entry_id ∈ handleCheckAll (fetchDashboardEntriesMap rows) selected) ∧
    (entryId ∉ selected → entryId ∈ handleCheckboxToggle entryId selected) := by
  constructor
  · intro hcard row hrow
    rw [handleCheckAll, if_neg hcard]
    simp only [fetchDashboardEntriesMap, List.mem_toFinset, List.map_map, List.mem_map]
    exact ⟨row, hrow, rfl⟩
  · intro hnot
    rw [handleCheckboxToggle, if_neg hnot]
    exact Finset.mem_insert_self entryId selected

/-- Witness for C5: "select all" over one row (whose pointer is `some 7`)
selects its entry id, and toggling the unselected id 3 adds it. -/
theorem c5_witness :
    (⟨⟨1, "a", none, none, none⟩, some 7⟩ : DashboardRow).entry.entry_id ∈
      handleCheckAll (fetchDashboardEntriesMap [⟨⟨1, "a", none, none, none⟩, some 7⟩]) ∅ ∧
    (3 : Nat) ∈ handleCheckboxToggle 3 ∅ :=
  ⟨(c5_selection_ignores_job_pointer [⟨⟨1, "a", none, none, none⟩, some 7⟩] ∅ 3).1
      (by decide) _ (by decide),
   (c5_selection_ignores_job_pointer [⟨⟨1, "a", none, none, none⟩, some 7⟩] ∅ 3).2
      (by decide)⟩

/-- Every character produced by the decimal renderer is a digit. -/
theorem natDecCharsAux_digits :
    ∀ (fuel n : Nat), ∀ c ∈ natDecCharsAux fuel n, c.isDigit = true
  | 0, _, _, h => absurd h (List.not_mem_nil _)
  | fuel + 1, n, c, h => by
    rw [natDecCharsAux] at h
    by_cases hn : n < 10
    · rw [if_pos hn] at h
      rcases List.mem_singleton.mp h with rfl
      interval_cases n <;> decide
    · rw [if_neg hn] at h
      rcases List.mem_append.mp h with h | h
      · exact natDecCharsAux_digits fuel (n / 10) c h
      · rcases List.mem_singleton.mp h with rfl
        have h10 : n % 10 < 10 := Nat.mod_lt _ (by omega)
        set m := n % 10 with hm
        interval_cases m <;> decide

/-- A character list without `'f'` has no prefix equal to `"fetch"`. -/
theorem charsHavePfx_fetch_false (hay : List Char) (h : 'f' ∉ hay) :
    charsHavePfx "fetch".data hay = false := by
  match hay with
  | [] => rfl
  | c :: cs =>
    show charsHavePfx ('f' :: "etch".data) (c :: cs) = false
    rw [charsHavePfx]
    have : ('f' : Char) ≠ c := fun hc => h (hc ▸ List.mem_cons_self c cs)
    simp [this]

/-- A string without `'f'` does not include `"fetch"`. -/
theorem charsInclude_fetch_false :
    ∀ (hay : List Char), 'f' ∉ hay → charsInclude "fetch".data hay = false
  | [], _ => rfl
  | c :: cs, h => by
    rw [charsInclude]
    rw [charsHavePfx_fetch_false (c :: cs) h,
      charsInclude_fetch_false cs (fun hc => h (List.mem_cons_of_mem c hc))]
    rfl

/-- The message thrown for a non-OK upstream HTTP status never contains
`"fetch"`: its fixed text has no `'f'` and the status renders to digits. -/
theorem httpError_msg_no_fetch (status : Nat) :
    strIncludes ("NCBI API returned status " ++ natToStr status) "fetch" = false := by
  rw [strIncludes]
  apply charsInclude_fetch_false
  intro hf
  rw [String.data_append] at hf
  rcases List.mem_append.mp hf with hf | hf
  · revert hf
    decide
  · have := natDecCharsAux_digits (status + 1) status 'f' hf
    exact absurd this (by decide)

/-- C6 counterexample: the parameter `"3.5"` does not denote a positive
integer, yet the route's `parseInt`-based validation accepts it (the
request proceeds to the upstream call — here it times out and the route
returns 504, not 400). -/
theorem c6_counterexample_parseInt_leniency :
    specDenotesPositiveInteger "3.5" = false ∧
    taxidRouteStatus (some "3.5") NcbiOutcome.timeout = 504 := by decide

/-- C6 (amended): the route rejects with 400 exactly when the `taxid`
parameter is missing or `parseInt(taxid.trim(), 10)` is `NaN` or
non-positive (so any string whose leading digits form a positive number is
accepted, e.g. `"3.5"`); an accepted request maps the upstream outcome to
504 on timeout, 503 on a network error (a thrown message containing
`'fetch'`), 500 on a non-OK upstream HTTP status or any other error,
404 when the uid list is empty or the scientific name is missing, and
200 otherwise. -/
theorem c6_route_statuses (t : String) (v : Int)
    (hv : jsParseInt (jsTrim t) = some v) (hpos : 0 < v) :
    (∀ u, taxidRouteStatus none u = 400) ∧
    (∀ (s : String) (u : NcbiOutcome), jsParseInt (jsTrim s) = none →
      taxidRouteStatus (some s) u = 400) ∧
    (∀ (s : String) (w : Int) (u : NcbiOutcome), jsParseInt (jsTrim s) = some w → w ≤ 0 →
      taxidRouteStatus (some s) u = 400) ∧
    taxidRouteStatus (some t) NcbiOutcome.timeout = 504 ∧
    taxidRouteStatus (some t) NcbiOutcome.networkError = 503 ∧
    (∀ status, taxidRouteStatus (some t) (NcbiOutcome.httpError status) = 500) ∧
    (∀ msg, taxidRouteStatus (some t) (NcbiOutcome.otherError msg) =
      if strIncludes msg "fetch" = true then 503 else 500) ∧
    (∀ sci, taxidRouteStatus (some t) (NcbiOutcome.ok [] sci) = 404) ∧
    (∀ uid uids, taxidRouteStatus (some t) (NcbiOutcome.ok (uid :: uids) none) = 404) ∧
    (∀ uid uids name, taxidRouteStatus (some t) (NcbiOutcome.ok (uid :: uids) (some name)) = 200) := by
  have hneg : ¬(v ≤ 0) := by omega
  refine ⟨fun u => rfl, ?_, ?_, ?_, ?_, ?_, ?_, ?_, ?_, ?_⟩
  · intro s u hs
    simp [taxidRouteStatus, hs]
  · intro s w u hw hle
    simp [taxidRouteStatus, hw, hle]
  · simp [taxidRouteStatus, hv, hneg]
  · simp [taxidRouteStatus, hv, hneg]
  · intro status
    simp [taxidRouteStatus, hv, hneg, httpError_msg_no_fetch]
  · intro msg
    simp [taxidRouteStatus, hv, hneg]
  · intro sci
    simp [taxidRouteStatus, hv, hneg]
  · intro uid uids
    simp [taxidRouteStatus, hv, hneg]
  · intro uid uids name
    simp [taxidRouteStatus, hv, hneg]

/-- Witness for C6 at the accepted parameter `"42"`. -/
theorem c6_witness :
    taxidRouteStatus (some "42") NcbiOutcome.timeout = 504 ∧
    taxidRouteStatus (some "42") (NcbiOutcome.ok [9606] (some "Homo sapiens")) = 200 :=
  ⟨(c6_route_statuses "42" 42 (by decide) (by decide)).2.2.2.1,
   (c6_route_statuses "42" 42 (by decide) (by decide)).2.2.2.2.2.2.2.2.2 9606 [] "Homo sapiens"⟩

/-- Each bulk-import iteration increments the success/failure tally by
exactly one. -/
theorem importStep_sum (backend : Nat → Option String) (assayId : Option Nat)
    (st : ImportState) (r : FastaRecord) :
    (importStep backend assayId st r).success + (importStep backend assayId st r).failed =
      st.success + st.failed + 1 := by
  rcases hv : validateDnaSequence (cleanSequence r.sequence) with _ | e
  · rcases hb : backend st.idx with _ | msg
    · simp [importStep, hv, hb]
      omega
    · simp [importStep, hv, hb]
      omega
  · simp [importStep, hv]
    omega

/-- `countValidationPasses` on a cons. -/
theorem countValidationPasses_cons (r : FastaRecord) (rs : List FastaRecord) :
    countValidationPasses (r :: rs) =
      (if (validateDnaSequence (cleanSequence r.sequence)).isNone = true then 1 else 0) +
        countValidationPasses rs := by
  simp only [countValidationPasses, List.filter_cons]
  split
  · simp only [List.length_cons]
    omega
  · omega

/-- There is one failure entry per failing record. -/
theorem failingEntries_length (backend : Nat → Option String) :
    ∀ (i : Nat) (seqs : List FastaRecord),
      (failingEntries backend i seqs).length = countFails backend i seqs
  | _, [] => rfl
  | i, r :: rs => by
    rcases hv : validateDnaSequence (cleanSequence r.sequence) with _ | e
    · rcases hb : backend i with _ | msg
      · simp [failingEntries, countFails, recordFails, hv, hb,
          failingEntries_length backend (i + 1) rs]
      · simp [failingEntries, countFails, recordFails, hv, hb,
          failingEntries_length backend (i + 1) rs]
        omega
    · simp [failingEntries, countFails, recordFails, hv,
        failingEntries_length backend (i + 1) rs]
      omega

/-- Characterization of the bulk-import fold from an arbitrary state:
failures accumulate one per failing record, the error list extends by the
failing entries, success+failed grows by the record count, and one
`create_user_oligo` call is issued per validation-passing record. -/
theorem import_foldl_spec (backend : Nat → Option String) (assayId : Option Nat) :
    ∀ (seqs : List FastaRecord) (st : ImportState),
      (List.foldl (importStep backend assayId) st seqs).failed =
        st.failed + countFails backend st.idx seqs ∧
      (List.foldl (importStep backend assayId) st seqs).errors =
        st.errors ++ failingEntries backend st.idx seqs ∧
      (List.foldl (importStep backend assayId) st seqs).success +
          (List.foldl (importStep backend assayId) st seqs).failed =
        st.success + st.failed + seqs.length ∧
      (List.foldl (importStep backend assayId) st seqs).calls.length =
        st.calls.length + countValidationPasses seqs
  | [], st => by simp [countFails, failingEntries, countValidationPasses]
  | r :: rs, st => by
    obtain ⟨ihf, ihe, ihs, ihc⟩ :=
      import_foldl_spec backend assayId rs (importStep backend assayId st r)
    rw [List.foldl_cons]
    rcases hv : validateDnaSequence (cleanSequence r.sequence) with _ | e
    · rcases hb : backend st.idx with _ | msg
      · have h1 : (importStep backend assayId st r).idx = st.idx + 1 := by
          simp [importStep, hv, hb]
        have h2 : (importStep backend assayId st r).success = st.success + 1 := by
          simp [importStep, hv, hb]
        have h3 : (importStep backend assayId st r).failed = st.failed := by
          simp [importStep, hv, hb]
        have h4 : (importStep backend assayId st r).errors = st.errors := by
          simp [importStep, hv, hb]
        have h5 : (importStep backend assayId st r).calls.length = st.calls.length + 1 := by
          simp [importStep, hv, hb]
        refine ⟨?_, ?_, ?_, ?_⟩
        · rw [ihf, h3, h1]
          simp [countFails, recordFails, hv, hb]
        · rw [ihe, h4, h1]
          simp [failingEntries, hv, hb]
        · rw [ihs, h2, h3]
          simp only [List.length_cons]
          omega
        · rw [ihc, h5, countValidationPasses_cons]
          simp [hv]
          omega
      · have h1 : (importStep backend assayId st r).idx = st.idx + 1 := by
          simp [importStep, hv, hb]
        have h2 : (importStep backend assayId st r).success = st.success := by
          simp [importStep, hv, hb]
        have h3 : (importStep backend assayId st r).failed = st.failed + 1 := by
          simp [importStep, hv, hb]
        have h4 : (importStep backend assayId st r).errors = st.errors ++ [(r.name, msg)] := by
          simp [importStep, hv, hb]
        have h5 : (importStep backend assayId st r).calls.length = st.calls.length + 1 := by
          simp [importStep, hv, hb]
        refine ⟨?_, ?_, ?_, ?_⟩
        · rw [ihf, h3, h1]
          simp [countFails, recordFails, hv, hb]
          omega
        · rw [ihe, h4, h1]
          simp [failingEntries, hv, hb]
        · rw [ihs, h2, h3]
          simp only [List.length_cons]
          omega
        · rw [ihc, h5, countValidationPasses_cons]
          simp [hv]
          omega
    · have h1 : (importStep backend assayId st r).idx = st.idx + 1 := by
        simp [importStep, hv]
      have h2 : (importStep backend assayId st r).success = st.success := by
        simp [importStep, hv]
      have h3 : (importStep backend assayId st r).failed = st.failed + 1 := by
        simp [importStep, hv]
      have h4 : (importStep backend assayId st r).errors = st.errors ++ [(r.name, e)] := by
        simp [importStep, hv]
      have h5 : (importStep backend assayId st r).calls.length = st.calls.length := by
        simp [importStep, hv]
      refine ⟨?_, ?_, ?_, ?_⟩
      · rw [ihf, h3, h1]
        simp [countFails, recordFails, hv]
        omega
      · rw [ihe, h4, h1]
        simp [failingEntries, hv]
      · rw [ihs, h2, h3]
        simp only [List.length_cons]
        omega
      · rw [ihc, h5, countValidationPasses_cons]
        simp [hv]

/-- Every intermediate state of the bulk-import loop has a success/failure
tally bounded by the starting tally plus the number of records. -/
theorem scanl_sum_le (backend : Nat → Option String) (assayId : Option Nat) :
    ∀ (seqs : List FastaRecord) (st : ImportState),
      ∀ x ∈ List.scanl (importStep backend assayId) st seqs,
        x.success + x.failed ≤ st.success + st.failed + seqs.length
  | [], st => by
    intro x hx
    rw [List.scanl_nil] at hx
    rcases List.mem_singleton.mp hx with rfl
    simp
  | r :: rs, st => by
    intro x hx
    rw [List.scanl_cons] at hx
    rcases List.mem_cons.mp hx with rfl | hx
    · exact Nat.le_add_right _ _
    · have hle := scanl_sum_le backend assayId rs (importStep backend assayId st r) x hx
      rw [importStep_sum] at hle
      simp only [List.length_cons]
      omega

/-- C3: a bulk import of N parsed records of which M fail (validation or
create-oligo error) ends with success count N-M, failure count M, and an
error list that is exactly the `(name, message)` entry of each failing
record (hence of length M); one `create_user_oligo` call is issued per
validation-passing record regardless of earlier failures; and no displayed
progress report ever shows a success or failure count above N. -/
theorem c3_bulk_import_tally (backend : Nat → Option String) (assayId : Option Nat)
    (seqs : List FastaRecord) :
    (runImport backend assayId seqs).success = seqs.length - countFails backend 0 seqs ∧
    (runImport backend assayId seqs).failed = countFails backend 0 seqs ∧
    (runImport backend assayId seqs).errors = failingEntries backend 0 seqs ∧
    (runImport backend assayId seqs).errors.length = countFails backend 0 seqs ∧
    (runImport backend assayId seqs).calls.length = countValidationPasses seqs ∧
    ∀ p ∈ importProgressReports backend assayId seqs,
      p.total = seqs.length ∧ p.success ≤ seqs.length ∧ p.failed ≤ seqs.length := by
  have hspec := import_foldl_spec backend assayId seqs ⟨0, 0, 0, [], []⟩
  simp only [List.nil_append, List.length_nil, Nat.zero_add] at hspec
  obtain ⟨hf, he, hs, hc⟩ := hspec
  refine ⟨?_, ?_, ?_, ?_, ?_, ?_⟩
  · show (List.foldl (importStep backend assayId) ⟨0, 0, 0, [], []⟩ seqs).success =
      seqs.length - countFails backend 0 seqs
    omega
  · exact hf
  · exact he
  · show (List.foldl (importStep backend assayId) ⟨0, 0, 0, [], []⟩ seqs).errors.length =
      countFails backend 0 seqs
    rw [he, failingEntries_length]
  · exact hc
  · intro p hp
    simp only [importProgressReports, List.mem_map] at hp
    obtain ⟨x, hx, rfl⟩ := hp
    have hle := scanl_sum_le backend assayId seqs ⟨0, 0, 0, [], []⟩ x hx
    refine ⟨rfl, ?_, ?_⟩
    · show x.success ≤ seqs.length
      simp only at hle
      omega
    · show x.failed ≤ seqs.length
      simp only at hle
      omega

/-- Witness for C3: two records, one failing validation; the displayed
report after the second record shows the tallies within bounds. -/
theorem c3_witness :
    (⟨2, 1, 1, [("b", invalidCharsMessage)]⟩ : ImportProgress).total = 2 ∧
    (⟨2, 1, 1, [("b", invalidCharsMessage)]⟩ : ImportProgress).success ≤ 2 ∧
    (⟨2, 1, 1, [("b", invalidCharsMessage)]⟩ : ImportProgress).failed ≤ 2 :=
  (c3_bulk_import_tally (fun _ => none) none [⟨"a", "ACGT"⟩, ⟨"b", "XX"⟩]).2.2.2.2.2
    ⟨2, 1, 1, [("b", invalidCharsMessage)]⟩ (by decide)

/-- The quote-escaping fold doubles the number of quote characters. -/
theorem escapeQuotes_fold_count :
    ∀ (cs : List Char),
      (List.foldr (fun c acc => if c = '"' then '"' :: '"' :: acc else c :: acc) [] cs).count '"' =
        2 * cs.count '"'
  | [] => rfl
  | c :: cs => by
    rw [List.foldr_cons]
    by_cases hc : c = '"'
    · subst hc
      rw [if_pos rfl]
      simp [List.count_cons, escapeQuotes_fold_count cs]
      omega
    · rw [if_neg hc]
      simp [List.count_cons, hc, escapeQuotes_fold_count cs]

/-- C7: the exported row list ends with the alignment-patterns section —
its three-row section header, then exactly one header row, one
oligo-sequence row, and one data row per pattern; and every serialized
field is the quote-wrapped escaped cell, where escaping exactly doubles
each double-quote character of the cell. -/
theorem c7_csv_patterns_section (job : BlastJob) (assayName : String) (result : ResultData)
    (oligoNames oligoSequences : List String) :
    (∃ pre, handleExportCSVRows job assayName result oligoNames oligoSequences =
        pre ++ sectionHeaderRows "Alignment Patterns" ++
          [oligoNames ++ ["Count", "Total Mismatches", "Examples"]] ++
          [oligoSequences ++ ["", "", ""]] ++
          result.patterns.map (patternRow oligoNames.length) ∧
      (result.patterns.map (patternRow oligoNames.length)).length =
        result.patterns.length) ∧
    ∀ cell : String, ∃ inner, quoteField cell = "\"" ++ inner ++ "\"" ∧
      countQuotes inner = 2 * countQuotes cell ∧
      countQuotes (quoteField cell) = 2 + 2 * countQuotes cell := by
  refine ⟨⟨sectionHeaderRows "Job Information" ++
      [["Assay Name", assayName],
       ["Job ID", toString job.align_id],
       ["Date Range", job.alignjob_date_from ++ " to " ++ job.alignjob_date_to]] ++
      sectionHeaderRows "Statistics" ++
      [["Alignment Rate (%)", toString result.statistics.alignment_rate],
       ["Total BLAST Hits", toString result.statistics.total_blast_hits],
       ["Sequences Aligned", toString result.statistics.sequences_aligned],
       ["Filtered BLAST Hits", toString result.statistics.filtered_blast_hits],
       ["Sequences with Min Matches", toString result.statistics.sequences_with_min_matches]] ++
      (if result.per_oligo_stats.length > 0 then
        sectionHeaderRows "Per-Oligo Statistics" ++
        [["Oligo Name", "Match Rate (%)", "Sense Matches", "Antisense Matches",
          "Total Matches"]] ++
        result.per_oligo_stats.map (fun entry =>
          [entry.1, toString entry.2.match_rate, toString entry.2.sense_matches,
           toString entry.2.antisense_matches, toString entry.2.total_matches])
      else []) ++
      sectionHeaderRows "Input Parameters" ++
      [["Date From", job.alignjob_date_from],
       ["Date To", job.alignjob_date_to],
       ["TaxID", toString job.alignjob_taxid],
       [""],
       ["BLAST Parameters"],
       ["Identity (%)", optNumCell job.alignjob_identity],
       ["Coverage (%)", optNumCell job.alignjob_coverage],
       [""],
       ["Pairwise Aligner Parameters"],
       ["Match Score", optNumCell job.alignjob_match_score],
       ["Mismatch Score", optNumCell job.alignjob_mismatch_score],
       ["Open Gap Penalty", optNumCell job.alignjob_opengap],
       ["Extend Gap Penalty", optNumCell job.alignjob_extendgap],
       [""],
       ["Other Parameters"],
       ["Oligo Min Cover", optNumCell job.alignjob_oligo_min_cover]],
    ?_, by simp⟩, ?_⟩
  · simp only [handleExportCSVRows, List.append_assoc]
  · intro cell
    refine ⟨escapeQuotes cell, rfl, ?_, ?_⟩
    · simp only [countQuotes, escapeQuotes]
      exact escapeQuotes_fold_count cell.data
    · have hesc : countQuotes (escapeQuotes cell) = 2 * countQuotes cell := by
        simp only [countQuotes, escapeQuotes]
        exact escapeQuotes_fold_count cell.data
      simp only [countQuotes, quoteField, String.data_append] at *
      simp [List.count_append, hesc]
      omega
